import Mathlib

/-!
Verification of the Sulu headless API client (`src/client.js`).

The client is a thin orchestration layer: it builds request URLs from
configurable parts (base URL, base path, locale, resource path, query
parameters), dispatches the request through a pluggable transport, and
normalizes the response (optional `_embedded` unwrapping, then a
user-supplied `onResponse` transform), invoking an `onError` hook on
transport failure.

The embedding below translates the JavaScript source directly:
JavaScript values that flow through the normalization pipeline become the
inductive type `JSVal` (with JS truthiness and property access modelled
explicitly), rejected promises become `Except`, and the single-pass
`String.prototype.replaceAll('//', '/')` becomes a structural recursion
over the character list.
-/

namespace SuluClient

/-- Model of a JavaScript value as it flows through the response pipeline:
`undefined` is the JS undefined value, `obj` is a plain object given by its field list. -/
inductive JSVal where
  | undefined : JSVal
  | null : JSVal
  | bool : Bool → JSVal
  | num : Int → JSVal
  | str : String → JSVal
  | obj : List (String × JSVal) → JSVal

/-- JavaScript truthiness of a `JSVal` (objects are always truthy; `undefined`,
`null`, `false`, `0` and the empty string are falsy). -/
def truthy : JSVal → Bool
  | .undefined => false
  | .null => false
  | .bool b => b
  | .num n => n != 0
  | .str s => s != ""
  | .obj _ => true

/-- Optional-chained property access `v?.k`: field lookup on an object,
`undefined` on anything else (including `null` and `undefined` themselves,
matching the `?.` operator used at `json?._embedded`). -/
def getProp : JSVal → String → JSVal
  | .obj fields, k => (fields.lookup k).getD .undefined
  | _, _ => .undefined

/-- Errors thrown/rejected inside the client are opaque values; only their
identity matters to the claims, so they are modelled as strings. -/
abbrev Err := String

/-- The transport-response object (`ResponseLike`): `json = some r` models a
response whose `json` property is truthy and whose awaited `json()` call
yields `r` (a decoded body or a rejection); `json = none` models a falsy or
absent `json` property.  `data` is the value read by `response?.data`
(the undefined value when the field is absent, as in a fetch `Response`). -/
structure ResponseLike where
  json : Option (Except Err JSVal)
  data : JSVal

/-- The client's configuration fields, assigned once by the constructor
(`this.basePath`, `this.baseUrl`, ..., `this.removeEmbedded`).  The
transport `fetchClient` takes the URL string and the opaque `fetchOptions`
bag and either resolves to a response-like object or rejects.  `onError` is
a side-effecting hook (its invocations are tracked by `request`'s outcome);
`onResponse` may itself throw, hence `Except`. -/
structure Config where
  basePath : String
  baseUrl : String
  fetchClient : String → JSVal → Except Err ResponseLike
  fetchOptions : JSVal
  locale : String
  onError : Err → Unit
  onResponse : JSVal → Except Err JSVal
  removeEmbedded : Bool

/-- The `params` argument accepted by `buildUrl`'s options: `absent` models an
absent key (so the destructuring default `params = {}` applies), `falsy`
models an explicit falsy value such as `false`, and `mapping` models a
key/value object. -/
inductive ParamsArg where
  | absent : ParamsArg
  | falsy : ParamsArg
  | mapping : List (String × String) → ParamsArg

/-- Destructuring default `params = {}`: applied only when the passed value
is `undefined`. -/
def ParamsArg.defaulted : ParamsArg → ParamsArg
  | .absent => .mapping []
  | p => p

/-- The options bag of `buildUrl` after destructuring defaults for
`withBasePath`/`withLocale` (`params` keeps its pre-default value, see
`ParamsArg.defaulted`). -/
structure BuildOptions where
  params : ParamsArg
  withBasePath : Bool
  withLocale : Bool

/-- `buildUrl(path)` with the options bag omitted: `{}`, so every
destructuring default applies. -/
def defaultBuildOptions : BuildOptions := ⟨.absent, true, true⟩

/-- `Array.prototype.join('/')`: concatenate the segments with a single `/`
between consecutive elements. -/
def joinSep : List String → String
  | [] => ""
  | [s] => s
  | s :: rest => s ++ "/" ++ joinSep rest

/-- `String.prototype.replaceAll('//', '/')` on the character list: a single
left-to-right pass replacing each non-overlapping occurrence of `//` by `/`;
scanning resumes after the replacement, so a run of three slashes leaves a
doubled slash behind. -/
def replaceAllSS : List Char → List Char
  | [] => []
  | [c] => [c]
  | c₁ :: c₂ :: rest =>
    if c₁ = '/' ∧ c₂ = '/' then '/' :: replaceAllSS rest
    else c₁ :: replaceAllSS (c₂ :: rest)

/-- String form of `replaceAllSS`. -/
def collapse (s : String) : String := ⟨replaceAllSS s.data⟩

/-- Resolution of the joined path string against a base URL that is a bare
origin, as `new URL(s, baseUrl)` performs it: an absolute path is kept, a
relative one gains a leading `/`. -/
def resolvePath (s : String) : String :=
  if s.data.head? = some '/' then s else "/" ++ s

/-- `new URLSearchParams(ps).toString()`: `k=v` pairs joined by `&`
(percent-encoding is irrelevant to the claims and elided). -/
def serializeParams : List (String × String) → String
  | [] => ""
  | [(k, v)] => k ++ "=" ++ v
  | (k, v) :: rest => k ++ "=" ++ v ++ "&" ++ serializeParams rest

/-- The value object returned by `buildUrl` (a WHATWG `URL` resolved against
the configured origin): `search` holds the serialized query without the `?`. -/
structure UrlV where
  origin : String
  pathname : String
  search : String

/-- `URL.prototype.toString()`: origin, path, and — only when the query is
non-empty — `?` followed by the query (setting `url.search = ''` clears the
query entirely, so no bare `?` ever appears). -/
def urlToString (u : UrlV) : String :=
  u.origin ++ u.pathname ++ (if u.search = "" then "" else "?" ++ u.search)

/-- The ordered segment list assembled by `buildUrl`: locale only if
`this.locale` is truthy (non-empty) and `withLocale` holds, then basePath
under the analogous condition, then the given path. -/
def segmentsOf (c : Config) (path : String) (o : BuildOptions) : List String :=
  (if c.locale != "" && o.withLocale then [c.locale] else []) ++
    (if c.basePath != "" && o.withBasePath then [c.basePath] else []) ++
    [path]

/-- The joined segment string before separator collapsing. -/
def joinedPath (c : Config) (path : String) (o : BuildOptions) : String :=
  joinSep (segmentsOf c path o)

/-- `Client.buildUrl`: join the applicable segments with `/`, collapse
doubled separators in one pass, resolve against the base URL, and attach a
query string only when the (defaulted) `params` value is truthy. -/
def buildUrl (c : Config) (path : String) (o : BuildOptions) : UrlV :=
  let url : UrlV := ⟨c.baseUrl, resolvePath (collapse (joinedPath c path o)), ""⟩
  match o.params.defaulted with
  | .mapping ps => { url with search := serializeParams ps }
  | _ => url

/-- Detects a doubled separator `//` anywhere in a character list. -/
def hasDoubleSlash : List Char → Bool
  | [] => false
  | [_] => false
  | c₁ :: c₂ :: rest => (c₁ = '/' && c₂ = '/') || hasDoubleSlash (c₂ :: rest)

/-- Detects a run of three consecutive separators anywhere in a character
list. -/
def hasTripleSlash : List Char → Bool
  | [] => false
  | [_] => false
  | [_, _] => false
  | c₁ :: c₂ :: c₃ :: rest =>
    (c₁ = '/' && c₂ = '/' && c₃ = '/') || hasTripleSlash (c₂ :: c₃ :: rest)

/-- The decode step of `handleRequestResponse`:
`response.json ? await response.json() : response?.data` — use the JSON
decode operation when the `json` property is truthy (its rejection
propagates), otherwise fall back to the `data` field. -/
def decodeBody (r : ResponseLike) : Except Err JSVal :=
  match r.json with
  | some res => res
  | none => Except.ok r.data

/-- `Client.handleRequestResponse`: decode the body from whichever shape the
response exposes, unwrap the `_embedded` layer when `this.removeEmbedded`
holds and `json?._embedded` is truthy, then pass the body to
`this.onResponse` and return its result. -/
def handleRequestResponse (c : Config) (r : ResponseLike) : Except Err JSVal :=
  match decodeBody r with
  | .error e => .error e
  | .ok json =>
    let json := if c.removeEmbedded && truthy (getProp json "_embedded")
      then getProp json "_embedded" else json
    c.onResponse json

/-- The observable outcome of `Client.request`: the settled value of the
returned promise together with the arguments `this.onError` was invoked
with, in order (the hook itself returns `Unit`, so the invocation list is
its observable effect). -/
structure RequestOutcome where
  result : Except Err JSVal
  onErrorCalls : List Err

/-- `Client.request`: call the transport with the URL string and the
configured options; on rejection invoke `onError` with the error and
re-throw it; on success return `handleRequestResponse` of the response
(whose own errors propagate without touching `onError`). -/
def request (c : Config) (u : UrlV) : RequestOutcome :=
  match c.fetchClient (urlToString u) c.fetchOptions with
  | .error e => ⟨.error e, [e]⟩
  | .ok resp => ⟨handleRequestResponse c resp, []⟩

/-- The URL built by `getPageByPath`: `` `${path}.json` `` with base path and
locale suppressed and the `params` key absent from the options bag. -/
def pageUrl (c : Config) (path : String) : UrlV :=
  buildUrl c (path ++ ".json") ⟨.absent, false, false⟩

/-- `Client.getPageByPath`. -/
def getPageByPath (c : Config) (path : String) : RequestOutcome :=
  request c (pageUrl c path)

/-- The URL built by `getNavigationByKey`: `` `/navigations/${key}` `` with
the caller's `params` passed through and base path/locale applied. -/
def navigationUrl (c : Config) (key : String) (params : ParamsArg) : UrlV :=
  buildUrl c ("/navigations/" ++ key) ⟨params, true, true⟩

/-- `Client.getNavigationByKey`. -/
def getNavigationByKey (c : Config) (key : String) (params : ParamsArg) :
    RequestOutcome :=
  request c (navigationUrl c key params)

/-- The URL built by `getSnippetByArea`: `` `/snippet-areas/${area}` `` with
the caller's `params` passed through. -/
def snippetUrl (c : Config) (area : String) (params : ParamsArg) : UrlV :=
  buildUrl c ("/snippet-areas/" ++ area) ⟨params, true, true⟩

/-- `Client.getSnippetByArea`. -/
def getSnippetByArea (c : Config) (area : String) (params : ParamsArg) :
    RequestOutcome :=
  request c (snippetUrl c area params)

/-- The URL built by `search`: `/search` with the single query parameter
`q = query`. -/
def searchUrl (c : Config) (query : String) : UrlV :=
  buildUrl c "/search" ⟨.mapping [("q", query)], true, true⟩

/-- `Client.search`. -/
def search (c : Config) (query : String) : RequestOutcome :=
  request c (searchUrl c query)

/-!
State-passing forms of the client's methods.  The instance fields of
`Client` are mutable in JavaScript, so each method is also embedded as a
function that threads the configuration record (the value of `this`)
explicitly and returns the configuration as it stands when the method's
promise settles; the method bodies read fields and contain no assignment
to `this`, which these definitions mirror.
-/

/-- State-passing `buildUrl`: reads `this.locale`, `this.basePath`,
`this.baseUrl`, assigns nothing. -/
def buildUrlS (c : Config) (path : String) (o : BuildOptions) : UrlV × Config :=
  (buildUrl c path o, c)

/-- State-passing `handleRequestResponse`: reads `this.removeEmbedded` and
`this.onResponse`, assigns nothing. -/
def handleRequestResponseS (c : Config) (r : ResponseLike) :
    Except Err JSVal × Config :=
  (handleRequestResponse c r, c)

/-- State-passing `request`: reads `this.fetchClient`, `this.fetchOptions`
and `this.onError`, delegates to `handleRequestResponseS`, assigns
nothing. -/
def requestS (c : Config) (u : UrlV) : RequestOutcome × Config :=
  match c.fetchClient (urlToString u) c.fetchOptions with
  | .error e => (⟨.error e, [e]⟩, c)
  | .ok resp =>
    let hr := handleRequestResponseS c resp
    (⟨hr.1, []⟩, hr.2)

/-- State-passing `getPageByPath`. -/
def getPageByPathS (c : Config) (path : String) : RequestOutcome × Config :=
  let bu := buildUrlS c (path ++ ".json") ⟨.absent, false, false⟩
  requestS bu.2 bu.1

/-- State-passing `getNavigationByKey`. -/
def getNavigationByKeyS (c : Config) (key : String) (params : ParamsArg) :
    RequestOutcome × Config :=
  let bu := buildUrlS c ("/navigations/" ++ key) ⟨params, true, true⟩
  requestS bu.2 bu.1

/-- State-passing `getSnippetByArea`. -/
def getSnippetByAreaS (c : Config) (area : String) (params : ParamsArg) :
    RequestOutcome × Config :=
  let bu := buildUrlS c ("/snippet-areas/" ++ area) ⟨params, true, true⟩
  requestS bu.2 bu.1

/-- State-passing `search`. -/
def searchS (c : Config) (query : String) : RequestOutcome × Config :=
  let bu := buildUrlS c "/search" ⟨.mapping [("q", query)], true, true⟩
  requestS bu.2 bu.1

/-!
Helper lemmas on the separator machinery.
-/

theorem hasDoubleSlash_cons (c : Char) (l : List Char) :
    hasDoubleSlash (c :: l) =
      ((c = '/' && l.head? = some '/') || hasDoubleSlash l) := by
  cases l with
  | nil => simp [hasDoubleSlash]
  | cons d t => simp [hasDoubleSlash]

theorem hasDoubleSlash_tail {c : Char} {l : List Char}
    (h : hasDoubleSlash (c :: l) = false) : hasDoubleSlash l = false := by
  rw [hasDoubleSlash_cons] at h
  exact (Bool.or_eq_false_iff.mp h).2

theorem hasTripleSlash_tail {c : Char} {l : List Char}
    (h : hasTripleSlash (c :: l) = false) : hasTripleSlash l = false := by
  cases l with
  | nil => rfl
  | cons d t =>
    cases t with
    | nil => rfl
    | cons e t' =>
      rw [hasTripleSlash] at h
      exact (Bool.or_eq_false_iff.mp h).2

theorem replaceAllSS_cons_ne (c : Char) (l : List Char) (hc : ¬ c = '/') :
    replaceAllSS (c :: l) = c :: replaceAllSS l := by
  cases l with
  | nil => rfl
  | cons d t =>
    rw [replaceAllSS]
    rw [if_neg (by intro h; exact hc h.1)]

theorem replaceAllSS_slash_cons (l : List Char) (h : l.head? ≠ some '/') :
    replaceAllSS ('/' :: l) = '/' :: replaceAllSS l := by
  cases l with
  | nil => rfl
  | cons d t =>
    rw [replaceAllSS]
    rw [if_neg (by intro hh; exact h (by simp [hh.2]))]

theorem replaceAllSS_double (l : List Char) :
    replaceAllSS ('/' :: '/' :: l) = '/' :: replaceAllSS l := by
  rw [replaceAllSS, if_pos ⟨rfl, rfl⟩]

theorem replaceAllSS_head? (l : List Char) :
    (replaceAllSS l).head? = l.head? := by
  induction l using replaceAllSS.induct with
  | case1 => rfl
  | case2 c => rfl
  | case3 c₁ c₂ rest hif ih => rw [replaceAllSS, if_pos hif]; simp [hif.1]
  | case4 c₁ c₂ rest hif ih => rw [replaceAllSS, if_neg hif]; simp

/-- The single collapsing pass leaves a string without doubled separators
unchanged. -/
theorem replaceAllSS_eq_self {l : List Char} (h : hasDoubleSlash l = false) :
    replaceAllSS l = l := by
  induction l using replaceAllSS.induct with
  | case1 => rfl
  | case2 c => rfl
  | case3 c₁ c₂ rest hif ih =>
    exfalso
    rw [hasDoubleSlash_cons] at h
    simp [hif.1, hif.2] at h
  | case4 c₁ c₂ rest hif ih =>
    rw [replaceAllSS, if_neg hif, ih (hasDoubleSlash_tail h)]

/-- On inputs whose separator runs have length at most two, the single
collapsing pass removes every doubled separator. -/
theorem collapse_noDouble {l : List Char} (h : hasTripleSlash l = false) :
    hasDoubleSlash (replaceAllSS l) = false := by
  induction l using replaceAllSS.induct with
  | case1 => rfl
  | case2 c => rfl
  | case3 c₁ c₂ rest hif ih =>
    rw [replaceAllSS, if_pos hif]
    rw [hasDoubleSlash_cons]
    have hrest3 : hasTripleSlash rest = false :=
      hasTripleSlash_tail (hasTripleSlash_tail h)
    have hhd : rest.head? ≠ some '/' := by
      intro hh
      cases rest with
      | nil => simp at hh
      | cons c₃ t =>
        simp at hh
        subst hh
        rw [hif.1, hif.2] at h
        simp [hasTripleSlash] at h
    rw [replaceAllSS_head?]
    simp only [Bool.or_eq_false_iff]
    constructor
    · cases hr : rest.head? with
      | none => rfl
      | some d =>
        have hd : ¬ d = '/' := by intro hd; exact hhd (by rw [hr, hd])
        simp [hd]
    · exact ih hrest3
  | case4 c₁ c₂ rest hif ih =>
    rw [replaceAllSS, if_neg hif]
    rw [hasDoubleSlash_cons]
    have h2 : hasTripleSlash (c₂ :: rest) = false := hasTripleSlash_tail h
    simp only [Bool.or_eq_false_iff]
    constructor
    · rw [replaceAllSS_head?]
      simp only [List.head?_cons]
      by_cases hc1 : c₁ = '/'
      · have hc2 : ¬ c₂ = '/' := by intro hc2; exact hif ⟨hc1, hc2⟩
        simp [hc2]
      · simp [hc1]
    · exact ih h2

/-- Appending a double-free suffix that does not start with `/` to a
double-free list yields a double-free list. -/
theorem hasDoubleSlash_append {l m : List Char} (hl : hasDoubleSlash l = false)
    (hm : hasDoubleSlash m = false) (hmh : m.head? ≠ some '/') :
    hasDoubleSlash (l ++ m) = false := by
  induction l using hasDoubleSlash.induct with
  | case1 => simpa using hm
  | case2 c =>
    rw [List.singleton_append, hasDoubleSlash_cons]
    simp only [Bool.or_eq_false_iff]
    exact ⟨by simp [decide_eq_false hmh], hm⟩
  | case3 c₁ c₂ rest ih =>
    rw [List.cons_append, hasDoubleSlash_cons]
    simp only [Bool.or_eq_false_iff]
    rw [hasDoubleSlash_cons] at hl
    have hl' := Bool.or_eq_false_iff.mp hl
    constructor
    · simpa using hl'.1
    · exact ih hl'.2

/-- Every character produced by the collapsing pass occurs in its input. -/
theorem mem_replaceAllSS {a : Char} {l : List Char}
    (h : a ∈ replaceAllSS l) : a ∈ l := by
  induction l using replaceAllSS.induct with
  | case1 => simp [replaceAllSS] at h
  | case2 c => simp [replaceAllSS] at h; simp [h]
  | case3 c₁ c₂ rest hif ih =>
    rw [replaceAllSS, if_pos hif] at h
    rcases List.mem_cons.mp h with h | h
    · subst h; simp [hif.1]
    · simp [ih h]
  | case4 c₁ c₂ rest hif ih =>
    rw [replaceAllSS, if_neg hif] at h
    rcases List.mem_cons.mp h with h | h
    · simp [h]
    · rcases List.mem_cons.mp (ih h) with h' | h' <;> simp [h']

/-- Every character of a joined segment list is a separator or a character
of one of the segments. -/
theorem mem_joinSep {a : Char} {ss : List String}
    (h : a ∈ (joinSep ss).data) : a = '/' ∨ ∃ s ∈ ss, a ∈ s.data := by
  induction ss using joinSep.induct with
  | case1 => simp [joinSep] at h
  | case2 s => exact Or.inr ⟨s, by simp, by simpa [joinSep] using h⟩
  | case3 s rest hne ih =>
    have hd : (joinSep (s :: rest)).data =
        (s.data ++ ['/']) ++ (joinSep rest).data := by
      cases rest with
      | nil => exact absurd rfl hne
      | cons b u => rfl
    rw [hd] at h
    rcases List.mem_append.mp h with h | h
    · rcases List.mem_append.mp h with h | h
      · exact Or.inr ⟨s, by simp, h⟩
      · exact Or.inl (by simpa using h)
    · rcases ih h with h' | ⟨t, ht, hat⟩
      · exact Or.inl h'
      · exact Or.inr ⟨t, by simp [ht], hat⟩

/-- The segments assembled by `buildUrl` are drawn from the locale, the
base path and the given path. -/
theorem mem_segmentsOf {s : String} {c : Config} {path : String}
    {o : BuildOptions} (h : s ∈ segmentsOf c path o) :
    s = c.locale ∨ s = c.basePath ∨ s = path := by
  simp only [segmentsOf, List.mem_append] at h
  rcases h with (h | h) | h
  · split at h
    · simp at h; exact Or.inl h
    · simp at h
  · split at h
    · simp at h; exact Or.inr (Or.inl h)
    · simp at h
  · simp at h; exact Or.inr (Or.inr h)

/-- The path component of the built URL, independent of the query branch. -/
theorem buildUrl_pathname (c : Config) (path : String) (o : BuildOptions) :
    (buildUrl c path o).pathname =
      resolvePath (collapse (joinedPath c path o)) := by
  unfold buildUrl
  split <;> rfl

/-- The origin of the built URL is the configured base URL. -/
theorem buildUrl_origin (c : Config) (path : String) (o : BuildOptions) :
    (buildUrl c path o).origin = c.baseUrl := by
  unfold buildUrl
  split <;> rfl

/-- A serialized non-empty parameter mapping is a non-empty string. -/
theorem serializeParams_ne_empty (k v : String)
    (ps : List (String × String)) : serializeParams ((k, v) :: ps) ≠ "" := by
  intro h
  have hd := congrArg String.data h
  cases ps with
  | nil =>
    have he : serializeParams [(k, v)] = k ++ "=" ++ v := rfl
    rw [he] at hd
    simp [String.data_append] at hd
  | cons q qs =>
    have he : serializeParams ((k, v) :: q :: qs)
        = k ++ "=" ++ v ++ "&" ++ serializeParams (q :: qs) := rfl
    rw [he] at hd
    simp [String.data_append] at hd

/-!
Concrete fixtures used by counterexamples and witnesses.
-/

/-- The default `onError` hook, `() => {}`. -/
def noopOnError : Err → Unit := fun _ => ()

/-- The default `onResponse` hook, `(r) => r` (never throws). -/
def identityOnResponse : JSVal → Except Err JSVal := fun v => .ok v

/-- A transport that is never reached by the facts proved about the fixture
using it. -/
def unusedFetch : String → JSVal → Except Err ResponseLike :=
  fun _ _ => Except.error "unused"

/-- A client built with the constructor defaults for `basePath`, `locale`,
`onError`, `onResponse` and `removeEmbedded`, as in the repository's test
suite. -/
def baseConfig : Config :=
  { basePath := "/api"
    baseUrl := "http://127.0.0.1:3000"
    fetchClient := unusedFetch
    fetchOptions := .obj []
    locale := ""
    onError := noopOnError
    onResponse := identityOnResponse
    removeEmbedded := false }

/-!
Claim theorems.
-/

/-- C1 (counterexample): with `basePath = '/api/'` — a configuration with a
trailing separator on a segment, which the claim explicitly covers — and
path `'/test'`, the joined string `'/api///test'` contains a run of three
separators, and the single `replaceAll('//', '/')` pass leaves the doubled
separator `'/api//test'` in the final path, contradicting "always collapses
every run of duplicate '/' separators to a single '/'". -/
theorem buildUrl_trailing_slash_leaves_double :
    (buildUrl { baseConfig with basePath := "/api/" } "/test"
        defaultBuildOptions).pathname = "/api//test" ∧
    hasDoubleSlash (buildUrl { baseConfig with basePath := "/api/" } "/test"
        defaultBuildOptions).pathname.data = true :=
  ⟨rfl, rfl⟩

/-- C1 (amended): the separator collapsing is a single non-overlapping
left-to-right pass of `'//' ↦ '/'`, so the final path of `buildUrl` is free
of doubled separators and starts with a single `/` whenever the joined
segment string contains no run of three or more consecutive separators
(in particular whenever each enabled segment has at most single leading and
no trailing separators); a run of three or more, such as a trailing
separator on `basePath` meeting a leading separator on the path, survives
the single pass as a doubled separator. -/
theorem buildUrl_no_double_of_no_triple (c : Config) (path : String)
    (o : BuildOptions) (hpath : path ≠ "")
    (h3 : hasTripleSlash (joinedPath c path o).data = false) :
    hasDoubleSlash (buildUrl c path o).pathname.data = false ∧
    (buildUrl c path o).pathname.data.head? = some '/' := by
  rw [buildUrl_pathname]
  have hcd : (collapse (joinedPath c path o)).data
      = replaceAllSS (joinedPath c path o).data := rfl
  unfold resolvePath
  by_cases hh : (collapse (joinedPath c path o)).data.head? = some '/'
  · rw [if_pos hh]
    exact ⟨by rw [hcd]; exact collapse_noDouble h3, hh⟩
  · rw [if_neg hh]
    have hdata : ("/" ++ collapse (joinedPath c path o)).data
        = '/' :: (collapse (joinedPath c path o)).data := rfl
    constructor
    · rw [hdata, hasDoubleSlash_cons]
      simp only [Bool.or_eq_false_iff]
      refine ⟨?_, by rw [hcd]; exact collapse_noDouble h3⟩
      simp [decide_eq_false hh]
    · rw [hdata]; rfl

/-- Witness for C1 (amended) at the default configuration and path
`'/test'`: the joined string `'/api//test'` has no triple separator, and
the resulting path has no doubled separator and a single leading one. -/
theorem buildUrl_no_double_of_no_triple_witness :
    hasDoubleSlash (buildUrl baseConfig "/test"
        defaultBuildOptions).pathname.data = false ∧
    (buildUrl baseConfig "/test"
        defaultBuildOptions).pathname.data.head? = some '/' :=
  buildUrl_no_double_of_no_triple baseConfig "/test" defaultBuildOptions
    (by decide) (by decide)

/-- C2: with `params` absent, explicitly falsy, or an empty mapping, the
built URL has an empty query component and its string form contains no `?`
at all (given that none of the path-forming inputs themselves contain a
`?`); and a query string is attached only for a non-empty mapping: any
non-empty mapping yields a non-empty query component. -/
theorem buildUrl_falsy_params_no_query (c : Config) (path : String)
    (wb wl : Bool) (p : ParamsArg)
    (hp : p = ParamsArg.absent ∨ p = ParamsArg.falsy ∨ p = ParamsArg.mapping [])
    (h0 : '?' ∉ c.baseUrl.data) (h1 : '?' ∉ path.data)
    (h2 : '?' ∉ c.basePath.data) (h3 : '?' ∉ c.locale.data) :
    ((buildUrl c path ⟨p, wb, wl⟩).search = "" ∧
      '?' ∉ (urlToString (buildUrl c path ⟨p, wb, wl⟩)).data) ∧
    ∀ k v ps,
      (buildUrl c path ⟨ParamsArg.mapping ((k, v) :: ps), wb, wl⟩).search ≠ "" := by
  have hsearch : (buildUrl c path ⟨p, wb, wl⟩).search = "" := by
    rcases hp with rfl | rfl | rfl <;> rfl
  refine ⟨⟨hsearch, ?_⟩, fun k v ps => serializeParams_ne_empty k v ps⟩
  intro hq
  have hts : urlToString (buildUrl c path ⟨p, wb, wl⟩)
      = c.baseUrl ++ (buildUrl c path ⟨p, wb, wl⟩).pathname ++ "" := by
    rw [urlToString, buildUrl_origin, hsearch, if_pos rfl]
  rw [hts] at hq
  have hq' : '?' ∈ c.baseUrl.data ∨
      '?' ∈ (buildUrl c path ⟨p, wb, wl⟩).pathname.data := by
    have : (c.baseUrl ++ (buildUrl c path ⟨p, wb, wl⟩).pathname ++ "").data
        = c.baseUrl.data ++ (buildUrl c path ⟨p, wb, wl⟩).pathname.data := by
      simp [String.data_append]
    rw [this] at hq
    exact List.mem_append.mp hq
  rcases hq' with hq' | hq'
  · exact h0 hq'
  · rw [buildUrl_pathname] at hq'
    have hj : '?' ∈ (joinedPath c path ⟨p, wb, wl⟩).data := by
      unfold resolvePath at hq'
      by_cases hh : (collapse (joinedPath c path ⟨p, wb, wl⟩)).data.head?
          = some '/'
      · rw [if_pos hh] at hq'
        exact mem_replaceAllSS hq'
      · rw [if_neg hh] at hq'
        have hdata : ("/" ++ collapse (joinedPath c path ⟨p, wb, wl⟩)).data
            = '/' :: (collapse (joinedPath c path ⟨p, wb, wl⟩)).data := rfl
        rw [hdata] at hq'
        rcases List.mem_cons.mp hq' with h | h
        · exact absurd h (by decide)
        · exact mem_replaceAllSS h
    rcases mem_joinSep hj with h | ⟨s, hs, hmem⟩
    · exact absurd h (by decide)
    · rcases mem_segmentsOf hs with rfl | rfl | rfl
      · exact h3 hmem
      · exact h2 hmem
      · exact h1 hmem

/-- Witness for C2 at the default configuration, path `'/test'` and
`params: false`, mirroring the repository's falsy-params test. -/
theorem buildUrl_falsy_params_no_query_witness :
    (buildUrl baseConfig "/test" ⟨ParamsArg.falsy, true, true⟩).search = "" ∧
    '?' ∉ (urlToString (buildUrl baseConfig "/test"
      ⟨ParamsArg.falsy, true, true⟩)).data ∧
    (buildUrl baseConfig "/test"
      ⟨ParamsArg.mapping [("foo", "bar")], true, true⟩).search ≠ "" := by
  have h := buildUrl_falsy_params_no_query baseConfig "/test" true true
    ParamsArg.falsy (Or.inr (Or.inl rfl)) (by decide) (by decide) (by decide)
    (by decide)
  exact ⟨h.1.1, h.1.2, h.2 "foo" "bar" []⟩

/-- C3: when the transport rejects with error `e`, `request` invokes the
`onError` hook exactly once, with exactly `e`, and rejects with the
identical `e`: the outcome is the rejection `e` with hook-invocation trace
`[e]` — the hook neither suppresses nor retries. -/
theorem request_transport_error (c : Config) (u : UrlV) (e : Err)
    (h : c.fetchClient (urlToString u) c.fetchOptions = Except.error e) :
    request c u = ⟨Except.error e, [e]⟩ := by
  unfold request
  rw [h]

/-- A client whose transport always rejects. -/
def failingFetchConfig : Config :=
  { baseConfig with fetchClient := fun _ _ => Except.error "network down" }

/-- A request target used by witnesses. -/
def testUrl : UrlV := ⟨"http://127.0.0.1:3000", "/test", ""⟩

/-- Witness for C3: a transport rejecting with `"network down"` makes
`request` call the hook once with it and reject with it. -/
theorem request_transport_error_witness :
    request failingFetchConfig testUrl
      = ⟨Except.error "network down", ["network down"]⟩ :=
  request_transport_error failingFetchConfig testUrl "network down" rfl

/-- C10: when the transport call succeeds but response normalization fails
(the response's `json()` rejects, or `onResponse` throws — exactly the
cases in which `handleRequestResponse` yields an error), `request`
propagates that error with an empty `onError`-invocation trace: the hook
fires only for errors of the transport call itself. -/
theorem request_normalization_error_no_hook (c : Config) (u : UrlV)
    (r : ResponseLike) (e : Err)
    (hf : c.fetchClient (urlToString u) c.fetchOptions = Except.ok r)
    (he : handleRequestResponse c r = Except.error e) :
    request c u = ⟨Except.error e, []⟩ := by
  unfold request
  rw [hf]
  show (⟨handleRequestResponse c r, []⟩ : RequestOutcome) = ⟨Except.error e, []⟩
  rw [he]

/-- A client whose transport resolves with a response whose `json()`
rejects. -/
def badJsonConfig : Config :=
  { baseConfig with
    fetchClient := fun _ _ =>
      Except.ok ⟨some (Except.error "bad json"), JSVal.undefined⟩ }

/-- Witness for C10: a rejecting `json()` propagates its error while the
`onError` trace stays empty. -/
theorem request_normalization_error_no_hook_witness :
    request badJsonConfig testUrl = ⟨Except.error "bad json", []⟩ :=
  request_normalization_error_no_hook badJsonConfig testUrl
    ⟨some (Except.error "bad json"), JSVal.undefined⟩ "bad json" rfl rfl

/-- C7: a fetch-like response whose JSON-decode operation yields payload
`p` and a data-bearing response carrying `p` under `data` (with no decode
operation) normalize to identical output under every configuration,
whatever the fetch-like response's unused `data` field `d` holds. -/
theorem handleRequestResponse_dual_shape (c : Config) (p d : JSVal) :
    handleRequestResponse c ⟨some (Except.ok p), d⟩
      = handleRequestResponse c ⟨none, p⟩ := rfl

/-- C9: a response exposing neither a truthy `json` property nor a `data`
field (so the decoded value is `undefined`) raises no error in
`handleRequestResponse`: the envelope-removal branch is skipped — even with
`removeEmbedded` set — and the result is exactly `onResponse` applied to
`undefined`. -/
theorem handleRequestResponse_no_shape (c : Config) :
    handleRequestResponse c ⟨none, JSVal.undefined⟩
      = c.onResponse JSVal.undefined := by
  show c.onResponse
      (if c.removeEmbedded && truthy (getProp JSVal.undefined "_embedded")
        then getProp JSVal.undefined "_embedded" else JSVal.undefined)
    = c.onResponse JSVal.undefined
  simp [show truthy (getProp JSVal.undefined "_embedded") = false from rfl]

/-- A client with `removeEmbedded: true` and otherwise default options. -/
def embeddedConfig : Config := { baseConfig with removeEmbedded := true }

/-- C4 (counterexample): with `removeEmbedded = true` and the decoded body
`{ _embedded: null }` — an object containing the top-level key `_embedded` —
the body is NOT replaced by the value under `_embedded`: the code tests the
truthiness of `json?._embedded`, not the presence of the key, so the falsy
value `null` leaves the body unchanged, contradicting the claim's "replaces
the body with the value stored under '_embedded'". -/
theorem handleRequestResponse_falsy_embedded_not_unwrapped :
    handleRequestResponse embeddedConfig
        ⟨none, JSVal.obj [("_embedded", JSVal.null)]⟩
      = Except.ok (JSVal.obj [("_embedded", JSVal.null)]) ∧
    handleRequestResponse embeddedConfig
        ⟨none, JSVal.obj [("_embedded", JSVal.null)]⟩
      ≠ Except.ok JSVal.null :=
  ⟨rfl, fun h => JSVal.noConfusion (Except.ok.inj h)⟩

/-- C4 (amended): with `removeEmbedded = true` the decoded body is replaced
by the value under `_embedded` exactly when that value is truthy (in
particular whenever it is an object, the envelope shape the claim
describes); a body whose `_embedded` value is falsy or that lacks
`_embedded` altogether (`getProp` then yields `undefined`, which is falsy)
passes through unchanged with no error, and with `removeEmbedded = false`
the body always passes through unchanged. -/
theorem handleRequestResponse_embedded_truthy_unwrap (c : Config)
    (b : JSVal) :
    (c.removeEmbedded = true → truthy (getProp b "_embedded") = true →
      handleRequestResponse c ⟨none, b⟩
        = c.onResponse (getProp b "_embedded")) ∧
    (c.removeEmbedded = true → truthy (getProp b "_embedded") = false →
      handleRequestResponse c ⟨none, b⟩ = c.onResponse b) ∧
    (c.removeEmbedded = false →
      handleRequestResponse c ⟨none, b⟩ = c.onResponse b) := by
  have hshow : handleRequestResponse c ⟨none, b⟩
      = c.onResponse (if c.removeEmbedded && truthy (getProp b "_embedded")
          then getProp b "_embedded" else b) := rfl
  refine ⟨fun h1 h2 => ?_, fun h1 h2 => ?_, fun h1 => ?_⟩ <;>
    rw [hshow, h1] <;> first
    | rw [h2]; rfl
    | rfl

/-- Witness for C4 (amended): the spec's own example — `removeEmbedded:
true` and body `{ _embedded: { items: {} } }` — resolves to `{ items: {} }`. -/
theorem handleRequestResponse_embedded_truthy_unwrap_witness :
    handleRequestResponse embeddedConfig
        ⟨none, JSVal.obj [("_embedded", JSVal.obj [("items", JSVal.obj [])])]⟩
      = Except.ok (JSVal.obj [("items", JSVal.obj [])]) := by
  have h := (handleRequestResponse_embedded_truthy_unwrap embeddedConfig
      (JSVal.obj [("_embedded", JSVal.obj [("items", JSVal.obj [])])])).1
    rfl rfl
  exact h.trans rfl

/-- In the state-passing semantics, `request` returns the configuration it
was called with. -/
theorem requestS_snd (c : Config) (u : UrlV) : (requestS c u).2 = c := by
  unfold requestS
  cases c.fetchClient (urlToString u) c.fetchOptions <;> rfl

/-- C8: no client operation mutates the configuration: in the
state-passing semantics of every method — `buildUrl`, `request`,
`handleRequestResponse` and the four convenience methods — the
configuration after the call equals the configuration before it (the
method bodies read `this` and contain no field assignment). -/
theorem client_ops_config_frame (c : Config) (path key area query : String)
    (o : BuildOptions) (u : UrlV) (r : ResponseLike) (ps₁ ps₂ : ParamsArg) :
    (buildUrlS c path o).2 = c ∧ (requestS c u).2 = c ∧
    (handleRequestResponseS c r).2 = c ∧ (getPageByPathS c path).2 = c ∧
    (getNavigationByKeyS c key ps₁).2 = c ∧
    (getSnippetByAreaS c area ps₂).2 = c ∧ (searchS c query).2 = c :=
  ⟨rfl, requestS_snd c u, rfl,
    requestS_snd c (buildUrl c (path ++ ".json") ⟨.absent, false, false⟩),
    requestS_snd c (buildUrl c ("/navigations/" ++ key) ⟨ps₁, true, true⟩),
    requestS_snd c (buildUrl c ("/snippet-areas/" ++ area) ⟨ps₂, true, true⟩),
    requestS_snd c (buildUrl c "/search" ⟨.mapping [("q", query)], true, true⟩)⟩

/-- The envelope-removal step of `handleRequestResponse`: the decoded body
is replaced by the value under `_embedded` exactly when `this.removeEmbedded`
holds and `json?._embedded` is truthy, else kept. -/
def unwrapEmbedded (c : Config) (b : JSVal) : JSVal :=
  if c.removeEmbedded && truthy (getProp b "_embedded")
    then getProp b "_embedded" else b

/-- A successful transport call whose response decodes to body `b` makes
`request` resolve to `onResponse` applied to the possibly
envelope-unwrapped `b`. -/
theorem request_result_transform (c : Config) (u : UrlV) (r : ResponseLike)
    (b : JSVal)
    (hr : c.fetchClient (urlToString u) c.fetchOptions = Except.ok r)
    (hb : decodeBody r = Except.ok b) :
    (request c u).result = c.onResponse (unwrapEmbedded c b) := by
  unfold request
  rw [hr]
  show handleRequestResponse c r = c.onResponse (unwrapEmbedded c b)
  unfold handleRequestResponse
  rw [hb]
  rfl

/-- C6: for every configured `onResponse` function and every convenience
method whose transport call succeeds with a body decoding as `body url`,
the resolved value equals `onResponse` applied to the (possibly
envelope-unwrapped) decoded body of that call; in particular, a constant
`onResponse` returning a fixed sentinel makes every convenience method
resolve to that sentinel regardless of the actual decoded body. -/
theorem convenience_methods_onResponse_transform (c : Config)
    (body : String → JSVal)
    (hfetch : ∀ url, ∃ r, c.fetchClient url c.fetchOptions = Except.ok r ∧
        decodeBody r = Except.ok (body url))
    (path key area query : String) (ps₁ ps₂ : ParamsArg) :
    ((getPageByPath c path).result
        = c.onResponse (unwrapEmbedded c
            (body (urlToString (pageUrl c path)))) ∧
      (getNavigationByKey c key ps₁).result
        = c.onResponse (unwrapEmbedded c
            (body (urlToString (navigationUrl c key ps₁)))) ∧
      (getSnippetByArea c area ps₂).result
        = c.onResponse (unwrapEmbedded c
            (body (urlToString (snippetUrl c area ps₂)))) ∧
      (search c query).result
        = c.onResponse (unwrapEmbedded c
            (body (urlToString (searchUrl c query))))) ∧
    ∀ s, c.onResponse = (fun _ => Except.ok s) →
      (getPageByPath c path).result = Except.ok s ∧
      (getNavigationByKey c key ps₁).result = Except.ok s ∧
      (getSnippetByArea c area ps₂).result = Except.ok s ∧
      (search c query).result = Except.ok s := by
  have hmain : ∀ u : UrlV, (request c u).result
      = c.onResponse (unwrapEmbedded c (body (urlToString u))) := by
    intro u
    obtain ⟨r, hr, hb⟩ := hfetch (urlToString u)
    exact request_result_transform c u r (body (urlToString u)) hr hb
  refine ⟨⟨hmain (pageUrl c path), hmain (navigationUrl c key ps₁),
    hmain (snippetUrl c area ps₂), hmain (searchUrl c query)⟩, ?_⟩
  intro s hs
  exact ⟨(hmain (pageUrl c path)).trans (by rw [hs]),
    (hmain (navigationUrl c key ps₁)).trans (by rw [hs]),
    (hmain (snippetUrl c area ps₂)).trans (by rw [hs]),
    (hmain (searchUrl c query)).trans (by rw [hs])⟩

/-- A client whose `onResponse` returns a fixed sentinel and whose
transport always resolves with some body, as in the repository's
response-transform test. -/
def sentinelConfig : Config :=
  { baseConfig with
    fetchClient := fun _ _ =>
      Except.ok ⟨none, JSVal.obj [("_embedded", JSVal.obj [])]⟩
    onResponse := fun _ =>
      Except.ok (JSVal.obj [("transformed", JSVal.bool true)]) }

/-- Witness for C6: with a constant sentinel `onResponse`, all four
convenience methods resolve to the sentinel object. -/
theorem convenience_methods_onResponse_transform_witness :
    (getPageByPath sentinelConfig "/lorem-ipsum").result
      = Except.ok (JSVal.obj [("transformed", JSVal.bool true)]) ∧
    (getNavigationByKey sentinelConfig "main" ParamsArg.absent).result
      = Except.ok (JSVal.obj [("transformed", JSVal.bool true)]) ∧
    (getSnippetByArea sentinelConfig "default" ParamsArg.absent).result
      = Except.ok (JSVal.obj [("transformed", JSVal.bool true)]) ∧
    (search sentinelConfig "lorem").result
      = Except.ok (JSVal.obj [("transformed", JSVal.bool true)]) :=
  (convenience_methods_onResponse_transform sentinelConfig
    (fun _ => JSVal.obj [("_embedded", JSVal.obj [])])
    (fun _ => ⟨⟨none, JSVal.obj [("_embedded", JSVal.obj [])]⟩, rfl, rfl⟩)
    "/lorem-ipsum" "main" "default" "lorem"
    ParamsArg.absent ParamsArg.absent).2
    (JSVal.obj [("transformed", JSVal.bool true)]) rfl

/-- Collapsing the navigation target joined under `locale = 'en'` and
`basePath = '/api'`: the two boundary double-separators collapse and a
double-free key that does not itself start with a separator passes through
unchanged. -/
theorem replaceAllSS_nav_front (ks : List Char) (h1 : ks.head? ≠ some '/')
    (h2 : hasDoubleSlash ks = false) :
    replaceAllSS (("en//api//navigations/").data ++ ks)
      = ("en/api/navigations/").data ++ ks := by
  have hpre : ("en//api//navigations/").data
      = 'e' :: 'n' :: '/' :: '/' :: 'a' :: 'p' :: 'i' :: '/' :: '/' :: 'n' ::
        'a' :: 'v' :: 'i' :: 'g' :: 'a' :: 't' :: 'i' :: 'o' :: 'n' :: 's' ::
        '/' :: [] := rfl
  rw [hpre]
  simp only [List.cons_append, List.nil_append]
  rw [replaceAllSS_cons_ne 'e' _ (by decide),
    replaceAllSS_cons_ne 'n' _ (by decide), replaceAllSS_double,
    replaceAllSS_cons_ne 'a' _ (by decide),
    replaceAllSS_cons_ne 'p' _ (by decide),
    replaceAllSS_cons_ne 'i' _ (by decide), replaceAllSS_double,
    replaceAllSS_cons_ne 'n' _ (by decide),
    replaceAllSS_cons_ne 'a' _ (by decide),
    replaceAllSS_cons_ne 'v' _ (by decide),
    replaceAllSS_cons_ne 'i' _ (by decide),
    replaceAllSS_cons_ne 'g' _ (by decide),
    replaceAllSS_cons_ne 'a' _ (by decide),
    replaceAllSS_cons_ne 't' _ (by decide),
    replaceAllSS_cons_ne 'i' _ (by decide),
    replaceAllSS_cons_ne 'o' _ (by decide),
    replaceAllSS_cons_ne 'n' _ (by decide),
    replaceAllSS_cons_ne 's' _ (by decide),
    replaceAllSS_slash_cons ks h1, replaceAllSS_eq_self h2]

/-- C5: under `basePath = '/api'` and `locale = 'en'`, `getPageByPath`
requests the target `{path}.json` with an empty query — neither the locale
segment nor the base path appears, because the method suppresses both —
while `getNavigationByKey` under the same configuration requests
`/en/api/navigations/{key}` with an empty query, both segments applied
(for any path that is absolute and double-separator-free and any key that
neither starts with a separator nor contains a doubled one). -/
theorem page_and_navigation_targets (c : Config) (path key : String)
    (hbp : c.basePath = "/api") (hloc : c.locale = "en")
    (hp1 : path.data.head? = some '/')
    (hp2 : hasDoubleSlash path.data = false)
    (hk1 : key.data.head? ≠ some '/')
    (hk2 : hasDoubleSlash key.data = false) :
    ((pageUrl c path).pathname = path ++ ".json" ∧
      (pageUrl c path).search = "") ∧
    ((navigationUrl c key ParamsArg.absent).pathname
        = "/en/api/navigations/" ++ key ∧
      (navigationUrl c key ParamsArg.absent).search = "") := by
  obtain ⟨t, ht⟩ : ∃ t, path.data = '/' :: t := by
    cases hd : path.data with
    | nil => rw [hd] at hp1; exact absurd hp1 (by simp)
    | cons a u =>
      rw [hd] at hp1
      simp only [List.head?_cons, Option.some.injEq] at hp1
      exact ⟨u, by rw [hp1]⟩
  refine ⟨⟨?_, rfl⟩, ⟨?_, rfl⟩⟩
  · have hseg : segmentsOf c (path ++ ".json") ⟨.absent, false, false⟩
        = [path ++ ".json"] := by
      unfold segmentsOf
      simp [Bool.and_false]
    have hjoin : joinedPath c (path ++ ".json") ⟨.absent, false, false⟩
        = path ++ ".json" := by
      rw [joinedPath, hseg]
      rfl
    have hnd : hasDoubleSlash (path ++ ".json").data = false := by
      have hd : (path ++ ".json").data = path.data ++ (".json").data := rfl
      rw [hd]
      exact hasDoubleSlash_append hp2 (by decide) (by decide)
    have hcoll : collapse (path ++ ".json") = path ++ ".json" := by
      have hc : collapse (path ++ ".json")
          = ⟨replaceAllSS (path ++ ".json").data⟩ := rfl
      rw [hc, replaceAllSS_eq_self hnd]
    have hhead : (path ++ ".json").data.head? = some '/' := by
      have hd : (path ++ ".json").data = path.data ++ (".json").data := rfl
      rw [hd, ht]
      rfl
    show (buildUrl c (path ++ ".json") ⟨.absent, false, false⟩).pathname
      = path ++ ".json"
    rw [buildUrl_pathname, hjoin, hcoll, resolvePath, if_pos hhead]
  · have hseg2 : segmentsOf c ("/navigations/" ++ key) ⟨.absent, true, true⟩
        = ["en", "/api", "/navigations/" ++ key] := by
      unfold segmentsOf
      rw [hloc, hbp]
      rfl
    have hjoin2 : joinedPath c ("/navigations/" ++ key) ⟨.absent, true, true⟩
        = "en" ++ "/" ++ ("/api" ++ "/" ++ ("/navigations/" ++ key)) := by
      rw [joinedPath, hseg2]
      rfl
    have hjd : (joinedPath c ("/navigations/" ++ key)
          ⟨.absent, true, true⟩).data
        = ("en//api//navigations/").data ++ key.data := by
      rw [hjoin2]
      rfl
    have hcoll2 : (collapse (joinedPath c ("/navigations/" ++ key)
          ⟨.absent, true, true⟩)).data
        = ("en/api/navigations/").data ++ key.data := by
      have hc : (collapse (joinedPath c ("/navigations/" ++ key)
            ⟨.absent, true, true⟩)).data
          = replaceAllSS (joinedPath c ("/navigations/" ++ key)
              ⟨.absent, true, true⟩).data := rfl
      rw [hc, hjd]
      exact replaceAllSS_nav_front key.data hk1 hk2
    have hhead2 : (collapse (joinedPath c ("/navigations/" ++ key)
          ⟨.absent, true, true⟩)).data.head? ≠ some '/' := by
      rw [hcoll2,
        show ("en/api/navigations/".data ++ key.data).head? = some 'e' from rfl]
      decide
    show (buildUrl c ("/navigations/" ++ key) ⟨.absent, true, true⟩).pathname
      = "/en/api/navigations/" ++ key
    rw [buildUrl_pathname, resolvePath, if_neg hhead2]
    apply String.ext
    show '/' :: (collapse (joinedPath c ("/navigations/" ++ key)
        ⟨.absent, true, true⟩)).data = ("/en/api/navigations/" ++ key).data
    rw [hcoll2]
    rfl

/-- A client configured with `locale: 'en'` on top of the defaults (so
`basePath` is `/api`), as in the repository's localization tests. -/
def localizedConfig : Config := { baseConfig with locale := "en" }

/-- Witness for C5 at path `/lorem-ipsum` and navigation key `main`: the
page target is `/lorem-ipsum.json`, the navigation target is
`/en/api/navigations/main`, both without a query. -/
theorem page_and_navigation_targets_witness :
    ((pageUrl localizedConfig "/lorem-ipsum").pathname
        = "/lorem-ipsum" ++ ".json" ∧
      (pageUrl localizedConfig "/lorem-ipsum").search = "") ∧
    ((navigationUrl localizedConfig "main" ParamsArg.absent).pathname
        = "/en/api/navigations/" ++ "main" ∧
      (navigationUrl localizedConfig "main" ParamsArg.absent).search = "") :=
  page_and_navigation_targets localizedConfig "/lorem-ipsum" "main" rfl rfl
    rfl rfl (by decide) rfl

end SuluClient
